import Mathlib

/-!
# Verification of the lab-booking conflict-resolution core

Shallow embedding of `mas_visualization` (agents.py, simulation.py,
data_models.py) in Lean 4.  Timestamps are modelled as `Int` minutes since an
arbitrary epoch; intervals are half-open `[start, end)` pairs, matching the
`datetime` comparisons in the source.  Each definition mirrors the Python
function it is named after; theorems below settle the frozen claims.
-/

namespace MAS
/-- `data_models.Booking`: one booking in a lab's schedule. -/
structure Booking where
  booked_by : String
  start_time : Int
  end_time : Int
  student_count : Nat := 1
  flexibility_minutes : Int := 0
deriving DecidableEq, Repr

/-- Status strings returned by `LabAgent.check_availability`. -/
inductive Status where
  | AVAILABLE
  | CONFLICT_CAPACITY
  | CONFLICT_RIGID
deriving DecidableEq, Repr

/-- The dict `{"status": ..., "owner": ..., "booking": ...}` returned by
`LabAgent.check_availability`. -/
structure CheckResult where
  status : Status
  owner : Option String
  booking : Option Booking
deriving DecidableEq, Repr

/-- The `for booking_data in current_schedule` loop body of
`LabAgent.check_availability` (agents.py lines 80-91): return the first
booking whose interval satisfies
`request_start < booking_end and request_end > booking_start`. -/
def scanSchedule (request_start request_end : Int) :
    List Booking → CheckResult
  | [] => ⟨Status.AVAILABLE, none, none⟩
  | b :: rest =>
    if request_start < b.end_time ∧ request_end > b.start_time then
      ⟨Status.CONFLICT_RIGID, some b.booked_by, some b⟩
    else
      scanSchedule request_start request_end rest

/-- `LabAgent.check_availability` (agents.py lines 75-93): capacity gate
first, then the conflict scan. -/
def check_availability (capacity : Nat) (request_start request_end : Int)
    (requested_student_count : Nat) (current_schedule : List Booking) :
    CheckResult :=
  if capacity < requested_student_count then
    ⟨Status.CONFLICT_CAPACITY, none, none⟩
  else
    scanSchedule request_start request_end current_schedule

/-- The conflict predicate of the scan, as a Boolean, for stating claims
about "the first booking in list order" via `List.find?`. -/
def conflictsWith (request_start request_end : Int) (b : Booking) : Bool :=
  decide (request_start < b.end_time) && decide (request_end > b.start_time)

/-- `LabAgent.shift_booking` (agents.py lines 108-111): translate both
endpoints by `minutes` and return `True`, unconditionally. -/
def shift_booking (b : Booking) (minutes : Int) : Bool × Booking :=
  (true,
    ⟨b.booked_by, b.start_time + minutes, b.end_time + minutes,
      b.student_count, b.flexibility_minutes⟩)

/-- `LabAgent.add_booking` (agents.py lines 96-106): append the booking iff
no existing booking overlaps (`max(starts) < min(ends)`) and the capacity
suffices. -/
def add_booking (capacity : Nat) (schedule : List Booking)
    (start_time end_time : Int) (booked_by : String) (student_count : Nat) :
    Bool × List Booking :=
  let is_available :=
    !(schedule.any fun b =>
      decide (max b.start_time start_time < min b.end_time end_time))
  if is_available && decide (student_count ≤ capacity) then
    (true, schedule ++ [⟨booked_by, start_time, end_time, student_count, 0⟩])
  else
    (false, schedule)

/-- Two bookings partially overlap (the `max(starts) < min(ends)` test used
by `add_booking`). -/
def overlapsB (a b : Booking) : Bool :=
  decide (max a.start_time b.start_time < min a.end_time b.end_time)

/-- A schedule has no two (partially) overlapping bookings. -/
def noOverlap : List Booking → Bool
  | [] => true
  | b :: rest => rest.all (fun x => !overlapsB b x) && noOverlap rest

/-- The effect of the in-place mutation done by `shift_booking` as seen by
the schedule list that holds the mutated `Booking` object. -/
def shiftInSchedule (sched : List Booking) (target : Booking)
    (minutes : Int) : List Booking :=
  sched.map fun x => if x = target then (shift_booking x minutes).2 else x

/-- A negotiation decision: `ACCEPT`, `REJECT`, or `COUNTER` with an offered
shift in minutes. -/
inductive Decision where
  | ACCEPT
  | REJECT
  | COUNTER (offered_shift_minutes : Int)
deriving DecidableEq, Repr

/-- Modelled from the spec: the source's `LabAgent.evaluate_proposal`
delegates the accept/reject/counter judgment to an external language-model
call, so the deterministic decision policy of spec §4.3 is not present in
the source; this definition follows the spec's words. Given the target
booking's flexibility `F`, the requested shift `R`, the requester's
reputation `ρ` and the configured threshold `τ`: `ACCEPT` if `R ≤ F` and
`ρ ≥ τ`; `REJECT` if `R > 2F` regardless of reputation; otherwise `COUNTER`
with `offered = min F R` if `ρ ≥ τ`, else `offered = ⌊F/2⌋`. -/
def negotiationDecision (F R ρ τ : Int) : Decision :=
  if R ≤ F ∧ τ ≤ ρ then Decision.ACCEPT
  else if 2 * F < R then Decision.REJECT
  else if τ ≤ ρ then Decision.COUNTER (min F R)
  else Decision.COUNTER (F / 2)

/-- The data of one booking request reaching
`MultiAgentTrafficSystem.handle_booking_request`. -/
structure CommitRequest where
  start_time : Int
  end_time : Int
  student_count : Nat
  booked_by : String
deriving DecidableEq, Repr

/-- The persistence write of `handle_booking_request` (the
`bookings.insert()` call): append the new booking, `priority` aside. -/
def commitInsert (sched : List Booking) (r : CommitRequest) : List Booking :=
  sched ++ [⟨r.booked_by, r.start_time, r.end_time, r.student_count, 0⟩]

/-- One whole `handle_booking_request` commit run without interruption:
fresh check against the schedule, then insert iff `AVAILABLE`. -/
def commitOnce (cap : Nat) (sched : List Booking) (r : CommitRequest) :
    List Booking :=
  if (check_availability cap r.start_time r.end_time r.student_count
      sched).status = Status.AVAILABLE then
    commitInsert sched r
  else
    sched

/-- Two concurrent `handle_booking_request` runs on the same resource in the
interleaving the code permits (its check and insert are separated by `await`
suspension points and no per-resource lock is taken): both fresh checks read
the same schedule snapshot, then both inserts land. -/
def interleavedCommits (cap : Nat) (sched : List Booking)
    (a b : CommitRequest) : List Booking :=
  let okA := (check_availability cap a.start_time a.end_time a.student_count
      sched).status = Status.AVAILABLE
  let okB := (check_availability cap b.start_time b.end_time b.student_count
      sched).status = Status.AVAILABLE
  let s1 := if okA then commitInsert sched a else sched
  if okB then commitInsert s1 b else s1

/-- A row of the `labs` table as used by the dispatcher's filtering
(name, capacity, `equipment` and `description` text columns). -/
structure Resource where
  name : String
  capacity : Nat
  equipment : String
  description : String
deriving DecidableEq, Repr

/-- The structured request produced by the intent extractor, as consumed by
`handle_availability_query` (the interval is carried separately). -/
structure StructuredRequest where
  lab_name : Option String
  equipment : Option (List String)
  student_count : Nat
deriving DecidableEq, Repr

/-- One element of the `availability_results` list. -/
structure QueryResult where
  lab_name : String
  status : Status
  start_time : Int
  end_time : Int
  student_count : Nat
deriving DecidableEq, Repr

/-- `pat` begins `hay` (character lists). -/
def beginsWith : List Char → List Char → Bool
  | [], _ => true
  | _ :: _, [] => false
  | a :: as, b :: bs => a == b && beginsWith as bs

/-- `pat` occurs contiguously somewhere in `hay` (character lists). -/
def containsSeq (pat : List Char) : List Char → Bool
  | [] => beginsWith pat []
  | c :: rest => beginsWith pat (c :: rest) || containsSeq pat rest

/-- Python's `str.lower()` on a string's characters (ASCII lowering). -/
def strLower (s : String) : List Char :=
  s.toList.map Char.toLower

/-- SQL `column ILIKE '%item%'`: case-insensitive substring containment. -/
def ilikeContains (hay pat : String) : Bool :=
  containsSeq (strLower pat) (strLower hay)

/-- The equipment-tier condition of `handle_availability_query` (simulation
lines 88-95): every requested item must match the lab's `equipment` or
`description` column, case-insensitively. -/
def equipmentMatch (r : Resource) (items : List String) : Bool :=
  items.all fun item =>
    ilikeContains r.equipment item || ilikeContains r.description item

/-- The candidate-selection logic of `handle_availability_query`
(simulation lines 76-100): exact (case-insensitive) lab-name filter first;
otherwise the all-tags equipment/description filter; otherwise all labs. -/
def selectTargets (all : List Resource) (req : StructuredRequest) :
    List Resource :=
  match req.lab_name with
  | some nm => all.filter fun r => strLower r.name == strLower nm
  | none =>
    match req.equipment with
    | some items => all.filter fun r => equipmentMatch r items
    | none => all

/-- The per-resource availability query of the dispatch loop (simulation
lines 104-120): snapshot the lab's schedule, run the check, build the
result row. -/
def dispatchResult (r : Resource) (request_start request_end : Int)
    (student_count : Nat) (scheds : String → List Booking) : QueryResult :=
  ⟨r.name,
    (check_availability r.capacity request_start request_end student_count
      (scheds r.name)).status,
    request_start, request_end, student_count⟩

/-- `handle_availability_query`'s dispatch-and-aggregate, value level:
select the candidate labs, query each, aggregate in candidate order. -/
def handle_availability_query (all : List Resource) (req : StructuredRequest)
    (request_start request_end : Int) (scheds : String → List Booking) :
    List QueryResult :=
  (selectTargets all req).map fun r =>
    dispatchResult r request_start request_end req.student_count scheds

/-- The fan-in barrier of `asyncio.gather`: task completions arrive in an
arbitrary order (`arrival` lists the task indices in completion order) and
each completed task's value is written into the result slot of its own
index; the aggregate is produced only once the whole arrival list has been
consumed. -/
def gatherFill {α : Type} (n : Nat) (results : Nat → α)
    (arrival : List Nat) : List (Option α) :=
  arrival.foldl (fun acc i => acc.set i (some (results i)))
    (List.replicate n none)

/-- The dispatch fan-out of `handle_availability_query` run through the
`gatherFill` fan-in: the i-th task queries the i-th selected lab. -/
def gatherDispatch (targets : List Resource) (request_start request_end : Int)
    (student_count : Nat) (scheds : String → List Booking)
    (arrival : List Nat) : List (Option QueryResult) :=
  gatherFill targets.length
    (fun i => dispatchResult (targets.getD i ⟨"", 0, "", ""⟩)
      request_start request_end student_count scheds)
    arrival

/-- A row of the `labs` table as used by `cancel_booking`. -/
structure LabRow where
  id : Nat
  name : String
deriving DecidableEq, Repr

/-- A row of the `bookings` table. -/
structure BookingRow where
  id : Nat
  lab_id : Nat
  start_time : Int
  end_time : Int
  student_count : Nat
  booked_by : String
deriving DecidableEq, Repr

/-- An authenticated user (auth.py `User`): username and role. -/
structure User where
  username : String
  role : String
deriving DecidableEq, Repr

/-- `LabAgent.cancel_booking` (agents.py lines 134-161) over the database
state: find the lab by name, find the booking by lab id and start time,
delete it only when the acting user is the booking's owner or has the
`super_admin` role; otherwise return the permission error naming actor and
owner and leave the table unchanged. -/
def cancel_booking (labsT : List LabRow) (bookingsT : List BookingRow)
    (lab_name : String) (start_time : Int) (user_to_cancel : User) :
    (Bool × String) × List BookingRow :=
  match labsT.find? fun l => l.name == lab_name with
  | none => ((false, "Lab not found."), bookingsT)
  | some lab =>
    match bookingsT.find? fun b =>
        b.lab_id == lab.id && b.start_time == start_time with
    | none => ((false, "Booking not found to cancel."), bookingsT)
    | some booking_to_remove =>
      let is_owner := booking_to_remove.booked_by == user_to_cancel.username
      let is_admin := user_to_cancel.role == "super_admin"
      if is_owner || is_admin then
        ((true, "Booking cancelled successfully."),
          bookingsT.filter fun b => !(b.id == booking_to_remove.id))
      else
        ((false, "PERMISSION DENIED: " ++ user_to_cancel.username ++
            " tried to cancel a booking owned by " ++
            booking_to_remove.booked_by ++ "."), bookingsT)

theorem scanSchedule_eq_find (request_start request_end : Int)
    (sched : List Booking) :
    scanSchedule request_start request_end sched =
      match sched.find? (conflictsWith request_start request_end) with
      | some b => ⟨Status.CONFLICT_RIGID, some b.booked_by, some b⟩
      | none => ⟨Status.AVAILABLE, none, none⟩ := by
  induction sched with
  | nil => rfl
  | cons b rest ih =>
    by_cases h : request_start < b.end_time ∧ request_end > b.start_time
    · simp [scanSchedule, h, List.find?, conflictsWith, h.1, h.2]
    · rw [Decidable.not_and_iff_or_not] at h
      rcases h with h | h
      · simp only [not_lt] at h
        simp [scanSchedule, conflictsWith, List.find?, not_lt.mpr h, ih,
          conflictsWith]
      · simp only [gt_iff_lt, not_lt] at h
        simp [scanSchedule, conflictsWith, List.find?, not_lt.mpr h, ih,
          conflictsWith]

/-- C1: with the capacity satisfied, `check_availability` returns
`CONFLICT_RIGID` carrying the first (in list order) booking whose interval
satisfies `requested.start < existing.end ∧ requested.end > existing.start`,
together with that booking's owner; if no booking satisfies the predicate it
returns `AVAILABLE`; merely touching intervals never satisfy the predicate. -/
theorem check_availability_scan_first_conflict
    (capacity : Nat) (request_start request_end : Int)
    (student_count : Nat) (sched : List Booking)
    (hcap : student_count ≤ capacity) :
    (check_availability capacity request_start request_end student_count sched =
      match sched.find? (conflictsWith request_start request_end) with
      | some b => ⟨Status.CONFLICT_RIGID, some b.booked_by, some b⟩
      | none => ⟨Status.AVAILABLE, none, none⟩) ∧
    (∀ b : Booking, request_end = b.start_time ∨ request_start = b.end_time →
      conflictsWith request_start request_end b = false) := by
  constructor
  · rw [check_availability, if_neg (not_lt.mpr hcap)]
    exact scanSchedule_eq_find request_start request_end sched
  · intro b hb
    rcases hb with hb | hb
    · simp [conflictsWith, hb, lt_irrefl]
    · simp [conflictsWith, hb, lt_irrefl]

theorem check_availability_scan_first_conflict_witness :
    (1 : Nat) ≤ 30 ∧
    ((check_availability 30 630 690 1
        [⟨"alice", 600, 660, 5, 20⟩] =
      match [(⟨"alice", 600, 660, 5, 20⟩ : Booking)].find?
          (conflictsWith 630 690) with
      | some b => ⟨Status.CONFLICT_RIGID, some b.booked_by, some b⟩
      | none => ⟨Status.AVAILABLE, none, none⟩) ∧
    (∀ b : Booking, (690 : Int) = b.start_time ∨ (630 : Int) = b.end_time →
      conflictsWith 630 690 b = false)) :=
  ⟨by decide,
   check_availability_scan_first_conflict 30 630 690 1
     [⟨"alice", 600, 660, 5, 20⟩] (by decide)⟩

/-- C2: when `student_count > capacity` the result is `CONFLICT_CAPACITY`
with no conflicting booking and no owner, whatever the schedule holds; in
particular it is never `CONFLICT_RIGID`. -/
theorem check_availability_capacity_gate
    (capacity : Nat) (request_start request_end : Int)
    (student_count : Nat) (sched : List Booking)
    (hcap : capacity < student_count) :
    check_availability capacity request_start request_end student_count sched =
      ⟨Status.CONFLICT_CAPACITY, none, none⟩ := by
  rw [check_availability, if_pos hcap]

theorem check_availability_capacity_gate_witness :
    (20 : Nat) < 25 ∧
    check_availability 20 600 660 25 [⟨"alice", 600, 660, 5, 20⟩] =
      ⟨Status.CONFLICT_CAPACITY, none, none⟩ :=
  ⟨by decide,
   check_availability_capacity_gate 20 600 660 25 [⟨"alice", 600, 660, 5, 20⟩]
     (by decide)⟩

/-- C10: `shift_booking` returns `True` and translates both endpoints by the
same (possibly negative) delta, leaving the duration and every other field
of the booking unchanged. -/
theorem shift_booking_translates
    (b : Booking) (minutes : Int) :
    (shift_booking b minutes).1 = true ∧
    (shift_booking b minutes).2.start_time = b.start_time + minutes ∧
    (shift_booking b minutes).2.end_time = b.end_time + minutes ∧
    (shift_booking b minutes).2.end_time - (shift_booking b minutes).2.start_time
      = b.end_time - b.start_time ∧
    (shift_booking b minutes).2.booked_by = b.booked_by ∧
    (shift_booking b minutes).2.student_count = b.student_count ∧
    (shift_booking b minutes).2.flexibility_minutes = b.flexibility_minutes := by
  refine ⟨rfl, rfl, rfl, ?_, rfl, rfl, rfl⟩
  simp [shift_booking]

/-- C4 counterexample: shifting `alice`'s 10:00-11:00 booking by +15 makes it
collide with `bob`'s 11:00-11:30 booking, so re-validation of the shifted
interval fails; yet `shift_booking` has returned plain `True` and the
interval keeps the shifted value instead of being reverted to its pre-shift
value. -/
theorem shift_booking_no_revert_counterexample :
    (check_availability 30
        (shift_booking ⟨"alice", 600, 660, 1, 20⟩ 15).2.start_time
        (shift_booking ⟨"alice", 600, 660, 1, 20⟩ 15).2.end_time 1
        [⟨"bob", 660, 690, 1, 0⟩]).status = Status.CONFLICT_RIGID ∧
    (shift_booking ⟨"alice", 600, 660, 1, 20⟩ 15).1 = true ∧
    (shift_booking ⟨"alice", 600, 660, 1, 20⟩ 15).2.start_time ≠ (600 : Int) := by
  decide

/-- C4 (amended): when re-validation of the shifted interval against the
rest of the schedule fails, the shift is NOT reverted: `shift_booking` has
already returned plain `True` and the booking keeps the shifted interval,
which differs from its pre-shift value whenever the shift is nonzero; no
distinct ShiftConflict outcome exists in the code. -/
theorem shift_booking_no_revert (cap : Nat) (b : Booking) (m : Int)
    (rest : List Booking)
    (hfail : (check_availability cap (shift_booking b m).2.start_time
        (shift_booking b m).2.end_time b.student_count rest).status ≠
        Status.AVAILABLE)
    (hm : m ≠ 0) :
    (shift_booking b m).1 = true ∧
    (shift_booking b m).2.start_time = b.start_time + m ∧
    (shift_booking b m).2.end_time = b.end_time + m ∧
    (shift_booking b m).2.start_time ≠ b.start_time := by
  refine ⟨rfl, rfl, rfl, ?_⟩
  intro h
  simp only [shift_booking] at h
  omega

theorem shift_booking_no_revert_witness :
    ((check_availability 30
        (shift_booking ⟨"alice", 600, 660, 1, 20⟩ 15).2.start_time
        (shift_booking ⟨"alice", 600, 660, 1, 20⟩ 15).2.end_time 1
        [⟨"bob", 660, 690, 1, 0⟩]).status ≠ Status.AVAILABLE) ∧
    ((15 : Int) ≠ 0) ∧
    ((shift_booking ⟨"alice", 600, 660, 1, 20⟩ 15).1 = true ∧
    (shift_booking ⟨"alice", 600, 660, 1, 20⟩ 15).2.start_time = 600 + 15 ∧
    (shift_booking ⟨"alice", 600, 660, 1, 20⟩ 15).2.end_time = 660 + 15 ∧
    (shift_booking ⟨"alice", 600, 660, 1, 20⟩ 15).2.start_time ≠ 600) :=
  ⟨by decide, by decide,
   shift_booking_no_revert 30 ⟨"alice", 600, 660, 1, 20⟩ 15
     [⟨"bob", 660, 690, 1, 0⟩] (by decide) (by decide)⟩

theorem noOverlap_sublist :
    ∀ {l' l : List Booking}, List.Sublist l' l → noOverlap l = true →
      noOverlap l' = true := by
  intro l' l h
  induction h with
  | slnil => exact id
  | cons a h ih =>
    intro hl
    simp only [noOverlap, Bool.and_eq_true] at hl
    exact ih hl.2
  | cons₂ a h ih =>
    intro hl
    simp only [noOverlap, Bool.and_eq_true, List.all_eq_true] at hl ⊢
    exact ⟨fun x hx => hl.1 x (h.subset hx), ih hl.2⟩

theorem noOverlap_append_one (sched : List Booking) (x : Booking)
    (h : noOverlap sched = true)
    (hx : ∀ b ∈ sched, overlapsB b x = false) :
    noOverlap (sched ++ [x]) = true := by
  induction sched with
  | nil => simp [noOverlap]
  | cons b rest ih =>
    simp only [noOverlap, Bool.and_eq_true, List.all_eq_true] at h
    simp only [List.cons_append, noOverlap, Bool.and_eq_true, List.all_eq_true]
    refine ⟨fun y hy => ?_, ih h.2 fun b' hb' => hx b' (List.mem_cons_of_mem _ hb')⟩
    rcases List.mem_append.mp hy with hy | hy
    · exact h.1 y hy
    · have hyx : y = x := by simpa using hy
      subst hyx
      simp [hx b (List.mem_cons_self b rest)]

theorem overlapsB_imp_conflict (b x : Booking) (h : overlapsB b x = true) :
    x.start_time < b.end_time ∧ x.end_time > b.start_time := by
  simp only [overlapsB, decide_eq_true_eq] at h
  constructor <;> omega

/-- C5 counterexample: a no-overlap schedule (`alice` 10:00-11:00,
`bob` 11:30-12:30) on which shifting `alice`'s booking by +60 minutes
(as `shift_booking` does, without any re-check) yields two partially
overlapping bookings at rest. -/
theorem noOverlap_shift_counterexample :
    noOverlap [⟨"alice", 600, 660, 1, 60⟩, ⟨"bob", 690, 750, 1, 0⟩] = true ∧
    noOverlap (shiftInSchedule
        [⟨"alice", 600, 660, 1, 60⟩, ⟨"bob", 690, 750, 1, 0⟩]
        ⟨"alice", 600, 660, 1, 60⟩ 60) = false := by
  decide

/-- C5 (amended): `add_booking`, the commit path's fresh-check-then-insert
(taken as one step) and cancellation (removal) each preserve the no-overlap
invariant of a resource's booking list, but `shift_booking` performs no
re-check and can break it (see the counterexample). -/
theorem booking_ops_preserve_noOverlap (cap : Nat) (sched : List Booking)
    (s e : Int) (who : String) (n : Nat) (p : Booking → Bool)
    (h : noOverlap sched = true) :
    noOverlap (add_booking cap sched s e who n).2 = true ∧
    ((check_availability cap s e n sched).status = Status.AVAILABLE →
      noOverlap (sched ++ [⟨who, s, e, n, 0⟩]) = true) ∧
    noOverlap (sched.filter p) = true := by
  refine ⟨?_, ?_, noOverlap_sublist (List.filter_sublist sched) h⟩
  · rw [add_booking]
    split_ifs with hcond
    · simp only [Bool.and_eq_true, Bool.not_eq_true', List.any_eq_false,
        decide_eq_true_eq, decide_eq_false_iff_not] at hcond
      refine noOverlap_append_one sched _ h fun b hb => ?_
      have := hcond.1 b hb
      simp only [overlapsB, decide_eq_false_iff_not]
      exact this
    · exact h
  · intro havail
    have hfind : sched.find? (conflictsWith s e) = none := by
      rcases hf : sched.find? (conflictsWith s e) with _ | b
      · rfl
      · exfalso
        rw [check_availability] at havail
        by_cases hc : cap < n
        · rw [if_pos hc] at havail
          exact Status.noConfusion havail
        · rw [if_neg hc, scanSchedule_eq_find, hf] at havail
          exact Status.noConfusion havail
    refine noOverlap_append_one sched _ h fun b hb => ?_
    have hnc : conflictsWith s e b = false := by
      rcases hcb : conflictsWith s e b with _ | _
      · rfl
      · exact absurd (List.find?_eq_none.mp hfind b hb) (by simp [hcb])
    rcases hov : overlapsB b ⟨who, s, e, n, 0⟩ with _ | _
    · rfl
    · exfalso
      have := overlapsB_imp_conflict b _ hov
      simp only [conflictsWith, Bool.and_eq_false_iff, decide_eq_false_iff_not,
        not_lt, gt_iff_lt] at hnc
      rcases this with ⟨h1, h2⟩
      simp only at h1 h2
      rcases hnc with hnc | hnc <;> omega

theorem booking_ops_preserve_noOverlap_witness :
    noOverlap [(⟨"alice", 600, 660, 5, 20⟩ : Booking)] = true ∧
    (noOverlap (add_booking 30 [⟨"alice", 600, 660, 5, 20⟩] 660 720 "bob" 5).2
        = true ∧
    ((check_availability 30 660 720 5 [⟨"alice", 600, 660, 5, 20⟩]).status =
        Status.AVAILABLE →
      noOverlap ([(⟨"alice", 600, 660, 5, 20⟩ : Booking)] ++
        [⟨"bob", 660, 720, 5, 0⟩]) = true) ∧
    noOverlap ([(⟨"alice", 600, 660, 5, 20⟩ : Booking)].filter
        fun b => b.booked_by ≠ "alice") = true) :=
  ⟨by decide,
   booking_ops_preserve_noOverlap 30 [⟨"alice", 600, 660, 5, 20⟩] 660 720
     "bob" 5 (fun b => b.booked_by ≠ "alice") (by decide)⟩

/-- C3: with nonnegative flexibility, the negotiation decision is exactly:
`ACCEPT` when `R ≤ F ∧ ρ ≥ τ`; `REJECT` when `R > 2F`, regardless of
reputation; otherwise `COUNTER` offering `min F R` when `ρ ≥ τ` and `⌊F/2⌋`
when `ρ < τ`. -/
theorem negotiationDecision_policy (F R ρ τ : Int) (hF : 0 ≤ F) :
    (R ≤ F ∧ τ ≤ ρ → negotiationDecision F R ρ τ = Decision.ACCEPT) ∧
    (2 * F < R → negotiationDecision F R ρ τ = Decision.REJECT) ∧
    (¬(R ≤ F ∧ τ ≤ ρ) → R ≤ 2 * F → τ ≤ ρ →
      negotiationDecision F R ρ τ = Decision.COUNTER (min F R)) ∧
    (¬(R ≤ F ∧ τ ≤ ρ) → R ≤ 2 * F → ρ < τ →
      negotiationDecision F R ρ τ = Decision.COUNTER (F / 2)) := by
  refine ⟨fun h => ?_, fun h => ?_, fun h1 h2 h3 => ?_, fun h1 h2 h3 => ?_⟩
  · rw [negotiationDecision, if_pos h]
  · have h1 : ¬(R ≤ F ∧ τ ≤ ρ) := by
      rintro ⟨h2, _⟩
      omega
    rw [negotiationDecision, if_neg h1, if_pos h]
  · rw [negotiationDecision, if_neg h1, if_neg (not_lt.mpr h2), if_pos h3]
  · rw [negotiationDecision, if_neg h1, if_neg (not_lt.mpr h2),
      if_neg (not_le.mpr h3)]

theorem negotiationDecision_policy_witness :
    (0 : Int) ≤ 20 ∧
    (((15 : Int) ≤ 20 ∧ (8 : Int) ≤ 10 →
      negotiationDecision 20 15 10 8 = Decision.ACCEPT) ∧
    (2 * 20 < (15 : Int) → negotiationDecision 20 15 10 8 = Decision.REJECT) ∧
    (¬((15 : Int) ≤ 20 ∧ (8 : Int) ≤ 10) → (15 : Int) ≤ 2 * 20 →
      (8 : Int) ≤ 10 →
      negotiationDecision 20 15 10 8 = Decision.COUNTER (min 20 15)) ∧
    (¬((15 : Int) ≤ 20 ∧ (8 : Int) ≤ 10) → (15 : Int) ≤ 2 * 20 →
      (10 : Int) < 8 →
      negotiationDecision 20 15 10 8 = Decision.COUNTER (20 / 2))) :=
  ⟨by decide, negotiationDecision_policy 20 15 10 8 (by decide)⟩

/-- C6: the check-then-insert commit path is not serialized per resource.
Two overlapping requests (10:00-11:00 and 10:30-11:30) against an empty
schedule: run serially, the second commit is refused and no overlap arises;
but in the interleaving the code permits, both pass the fresh check and both
are written, leaving two partially overlapping bookings committed. -/
theorem interleaved_commits_double_booking :
    noOverlap (commitOnce 30 (commitOnce 30 []
        ⟨600, 660, 5, "alice"⟩) ⟨630, 690, 5, "bob"⟩) = true ∧
    (commitOnce 30 (commitOnce 30 [] ⟨600, 660, 5, "alice"⟩)
        ⟨630, 690, 5, "bob"⟩).length = 1 ∧
    noOverlap (interleavedCommits 30 []
        ⟨600, 660, 5, "alice"⟩ ⟨630, 690, 5, "bob"⟩) = false ∧
    (interleavedCommits 30 [] ⟨600, 660, 5, "alice"⟩
        ⟨630, 690, 5, "bob"⟩).length = 2 := by
  decide

/-- C7: when the selected filter tier yields zero candidates — the name tier
when `lab_name` is present, else the equipment tier when `equipment` is
present — the dispatch returns the empty result list; in particular the name
tier never falls back to the equipment tier. -/
theorem dispatch_empty_filter_no_fallback (all : List Resource)
    (req : StructuredRequest) (s e : Int) (scheds : String → List Booking) :
    (∀ nm, req.lab_name = some nm →
      (all.filter fun r => strLower r.name == strLower nm) = [] →
      handle_availability_query all req s e scheds = []) ∧
    (∀ items, req.lab_name = none → req.equipment = some items →
      (all.filter fun r => equipmentMatch r items) = [] →
      handle_availability_query all req s e scheds = []) := by
  constructor
  · intro nm hnm hempty
    rw [handle_availability_query, selectTargets, hnm]
    simp only [hempty, List.map_nil]
  · intro items hnone hitems hempty
    rw [handle_availability_query, selectTargets, hnone, hitems]
    simp only [hempty, List.map_nil]

theorem dispatch_empty_filter_no_fallback_witness :
    ((∀ nm, (some "Robotics Lab" : Option String) = some nm →
      ([(⟨"AI Lab", 30, "computers, soldering iron", "ML workstations"⟩
          : Resource)].filter fun r => strLower r.name == strLower nm) = [] →
      handle_availability_query
        [⟨"AI Lab", 30, "computers, soldering iron", "ML workstations"⟩]
        ⟨some "Robotics Lab", some ["computers"], 1⟩ 600 660
        (fun _ => []) = []) ∧
    (∀ items, (some "Robotics Lab" : Option String) = none →
      (some ["computers"] : Option (List String)) = some items →
      ([(⟨"AI Lab", 30, "computers, soldering iron", "ML workstations"⟩
          : Resource)].filter fun r => equipmentMatch r items) = [] →
      handle_availability_query
        [⟨"AI Lab", 30, "computers, soldering iron", "ML workstations"⟩]
        ⟨some "Robotics Lab", some ["computers"], 1⟩ 600 660
        (fun _ => []) = [])) ∧
    handle_availability_query
      [⟨"AI Lab", 30, "computers, soldering iron", "ML workstations"⟩]
      ⟨some "Robotics Lab", some ["computers"], 1⟩ 600 660
      (fun _ => []) = [] :=
  ⟨dispatch_empty_filter_no_fallback
      [⟨"AI Lab", 30, "computers, soldering iron", "ML workstations"⟩]
      ⟨some "Robotics Lab", some ["computers"], 1⟩ 600 660 (fun _ => []),
   (dispatch_empty_filter_no_fallback
      [⟨"AI Lab", 30, "computers, soldering iron", "ML workstations"⟩]
      ⟨some "Robotics Lab", some ["computers"], 1⟩ 600 660
      (fun _ => [])).1 "Robotics Lab" rfl (by decide)⟩

theorem gatherFill_go {α : Type} (results : Nat → α) :
    ∀ (l : List Nat) (acc : List (Option α)) (j : Nat), j < acc.length →
      (l.foldl (fun a i => a.set i (some (results i))) acc)[j]? =
        if j ∈ l then some (some (results j)) else acc[j]? := by
  intro l
  induction l with
  | nil =>
    intro acc j _
    simp
  | cons i rest ih =>
    intro acc j hj
    rw [List.foldl_cons,
      ih (acc.set i (some (results i))) j (by simpa using hj)]
    by_cases hjr : j ∈ rest
    · simp [hjr]
    · by_cases hji : j = i
      · subst hji
        simp [hjr, List.getElem?_set_self hj]
      · simp [hjr, hji, List.getElem?_set_ne (fun h => hji h.symm)]

theorem gatherFill_length {α : Type} (results : Nat → α) :
    ∀ (l : List Nat) (acc : List (Option α)),
      (l.foldl (fun a i => a.set i (some (results i))) acc).length =
        acc.length := by
  intro l
  induction l with
  | nil => intro acc; rfl
  | cons i rest ih =>
    intro acc
    rw [List.foldl_cons, ih, List.length_set]

theorem gatherFill_perm {α : Type} (n : Nat) (results : Nat → α)
    (arrival : List Nat) (hperm : List.Perm arrival (List.range n)) :
    gatherFill n results arrival =
      (List.range n).map fun i => some (results i) := by
  apply List.ext_getElem?
  intro j
  by_cases hj : j < n
  · have hjl : j < (List.replicate n (none : Option α)).length := by
      simpa using hj
    rw [gatherFill, gatherFill_go results arrival _ j hjl]
    have hjm : j ∈ arrival := hperm.mem_iff.mpr (List.mem_range.mpr hj)
    rw [if_pos hjm, List.getElem?_map, List.getElem?_range hj]
    rfl
  · have h1 : (gatherFill n results arrival).length = n := by
      rw [gatherFill, gatherFill_length]
      simp
    have h2 : ((List.range n).map fun i => some (results i)).length = n := by
      simp
    rw [List.getElem?_eq_none (by omega), List.getElem?_eq_none (by omega)]

/-- C8: for any completion order of the per-resource checks (any permutation
`arrival` of the task indices), the aggregate equals the per-candidate
results in candidate-selection order — the i-th slot holds the i-th selected
lab's result — and the aggregate is only formed from the fully consumed
arrival list, every slot being filled. -/
theorem dispatch_order_matches_selection (all : List Resource)
    (req : StructuredRequest) (s e : Int) (scheds : String → List Booking)
    (arrival : List Nat)
    (hperm : List.Perm arrival (List.range (selectTargets all req).length)) :
    gatherDispatch (selectTargets all req) s e req.student_count scheds
        arrival =
      (handle_availability_query all req s e scheds).map some := by
  rw [gatherDispatch,
    gatherFill_perm _ _ arrival hperm, handle_availability_query]
  apply List.ext_getElem?
  intro j
  rw [List.getElem?_map, List.getElem?_map, List.getElem?_map]
  by_cases hj : j < (selectTargets all req).length
  · rw [List.getElem?_range hj, List.getElem?_eq_getElem hj]
    simp only [Option.map]
    rw [List.getD_eq_getElem _ _ hj]
  · rw [List.getElem?_eq_none (by simpa using not_lt.mp hj),
      List.getElem?_eq_none (not_lt.mp hj)]
    rfl

theorem dispatch_order_matches_selection_witness :
    List.Perm [1, 0]
      (List.range (selectTargets
        [⟨"AI Lab", 30, "computers", "ML"⟩, ⟨"Robotics Lab", 20, "robots", "arms"⟩]
        ⟨none, none, 1⟩).length) ∧
    gatherDispatch (selectTargets
        [⟨"AI Lab", 30, "computers", "ML"⟩, ⟨"Robotics Lab", 20, "robots", "arms"⟩]
        ⟨none, none, 1⟩) 600 660 1 (fun _ => []) [1, 0] =
      (handle_availability_query
        [⟨"AI Lab", 30, "computers", "ML"⟩, ⟨"Robotics Lab", 20, "robots", "arms"⟩]
        ⟨none, none, 1⟩ 600 660 (fun _ => [])).map some :=
  ⟨by decide,
   dispatch_order_matches_selection
     [⟨"AI Lab", 30, "computers", "ML"⟩, ⟨"Robotics Lab", 20, "robots", "arms"⟩]
     ⟨none, none, 1⟩ 600 660 (fun _ => []) [1, 0] (by decide)⟩

/-- C9: cancellation succeeds only when the actor owns the targeted booking
or has the `super_admin` role; for any other actor it fails, the error
message names both the actor and the booking's owner, and the bookings
table is returned unchanged. -/
theorem cancel_booking_permission (labsT : List LabRow)
    (bookingsT : List BookingRow) (lab_name : String) (start_time : Int)
    (u : User) :
    ((cancel_booking labsT bookingsT lab_name start_time u).1.1 = true →
      ∃ lab b, (labsT.find? fun l => l.name == lab_name) = some lab ∧
        (bookingsT.find? fun x =>
          x.lab_id == lab.id && x.start_time == start_time) = some b ∧
        (b.booked_by = u.username ∨ u.role = "super_admin")) ∧
    (∀ lab b, (labsT.find? fun l => l.name == lab_name) = some lab →
      (bookingsT.find? fun x =>
        x.lab_id == lab.id && x.start_time == start_time) = some b →
      ¬(b.booked_by = u.username ∨ u.role = "super_admin") →
      (cancel_booking labsT bookingsT lab_name start_time u).1.1 = false ∧
      (cancel_booking labsT bookingsT lab_name start_time u).1.2 =
        "PERMISSION DENIED: " ++ u.username ++
          " tried to cancel a booking owned by " ++ b.booked_by ++ "." ∧
      (cancel_booking labsT bookingsT lab_name start_time u).2 = bookingsT) := by
  constructor
  · intro hsucc
    rcases hlab : labsT.find? fun l => l.name == lab_name with _ | lab
    · rw [cancel_booking] at hsucc
      simp only [hlab] at hsucc
      exact absurd hsucc (by simp)
    · rcases hb : bookingsT.find? fun x =>
          x.lab_id == lab.id && x.start_time == start_time with _ | b
      · rw [cancel_booking] at hsucc
        simp only [hlab, hb] at hsucc
        exact absurd hsucc (by simp)
      · refine ⟨lab, b, hlab, hb, ?_⟩
        rw [cancel_booking] at hsucc
        simp only [hlab, hb] at hsucc
        by_cases hperm :
            (b.booked_by == u.username || u.role == "super_admin") = true
        · simpa using hperm
        · rw [if_neg hperm] at hsucc
          exact absurd hsucc (by simp)
  · intro lab b hlab hb hperm
    have hpb : (b.booked_by == u.username || u.role == "super_admin") = false := by
      simp only [Bool.or_eq_false_iff, beq_eq_false_iff_ne, ne_eq]
      constructor
      · intro h
        exact hperm (Or.inl h)
      · intro h
        exact hperm (Or.inr h)
    rw [cancel_booking]
    simp only [hlab, hb, hpb]
    exact ⟨rfl, rfl, rfl⟩

theorem cancel_booking_permission_witness :
    ((cancel_booking [⟨1, "AI Lab"⟩] [⟨7, 1, 600, 660, 5, "alice"⟩]
        "AI Lab" 600 ⟨"mallory", "student"⟩).1.1 = true →
      ∃ lab b,
        ([(⟨1, "AI Lab"⟩ : LabRow)].find? fun l => l.name == "AI Lab") =
          some lab ∧
        ([(⟨7, 1, 600, 660, 5, "alice"⟩ : BookingRow)].find? fun x =>
          x.lab_id == lab.id && x.start_time == 600) = some b ∧
        (b.booked_by = "mallory" ∨ "student" = "super_admin")) ∧
    (∀ lab b,
      ([(⟨1, "AI Lab"⟩ : LabRow)].find? fun l => l.name == "AI Lab") =
        some lab →
      ([(⟨7, 1, 600, 660, 5, "alice"⟩ : BookingRow)].find? fun x =>
        x.lab_id == lab.id && x.start_time == 600) = some b →
      ¬(b.booked_by = "mallory" ∨ "student" = "super_admin") →
      (cancel_booking [⟨1, "AI Lab"⟩] [⟨7, 1, 600, 660, 5, "alice"⟩]
        "AI Lab" 600 ⟨"mallory", "student"⟩).1.1 = false ∧
      (cancel_booking [⟨1, "AI Lab"⟩] [⟨7, 1, 600, 660, 5, "alice"⟩]
        "AI Lab" 600 ⟨"mallory", "student"⟩).1.2 =
        "PERMISSION DENIED: " ++ "mallory" ++
          " tried to cancel a booking owned by " ++ b.booked_by ++ "." ∧
      (cancel_booking [⟨1, "AI Lab"⟩] [⟨7, 1, 600, 660, 5, "alice"⟩]
        "AI Lab" 600 ⟨"mallory", "student"⟩).2 =
        [⟨7, 1, 600, 660, 5, "alice"⟩]) :=
  cancel_booking_permission [⟨1, "AI Lab"⟩] [⟨7, 1, 600, 660, 5, "alice"⟩]
    "AI Lab" 600 ⟨"mallory", "student"⟩

end MAS
